import Mathlib

/-!
Verification of the blog engine's front-matter parsing and publishing
pipeline, shallowly embedded from the Go sources (`internal/entry/entry.go`,
`internal/editor/editor.go`, `internal/filer/filer.go`,
`server/middleware.go`).  Strings are modelled as sequences of characters
(for the ASCII data handled here, Go's byte indexing and character indexing
coincide).
-/

namespace Blog

/-- Go `strings.Trim(s, " ")` on a character list: remove leading and
trailing space characters. -/
def trimChars (cs : List Char) : List Char :=
  ((cs.dropWhile (fun c => c == ' ')).reverse.dropWhile (fun c => c == ' ')).reverse

/-- Go `strings.Trim(s, " ")`. -/
def trimSpaces (s : String) : String := String.mk (trimChars s.data)

/-- Go `strings.Split(title, "-")`: split on every dash; an empty input
gives one empty segment, adjacent dashes give empty segments. -/
def splitDash : List Char → List (List Char)
  | [] => [[]]
  | c :: cs =>
    if c == '-' then [] :: splitDash cs
    else
      match splitDash cs with
      | [] => [[c]]
      | w :: ws => (c :: w) :: ws

/-- The error values the Go code produces: `errors.New` messages, and the
error returned by `time.Parse`, identified by the offending input value
(the Go code never inspects its text, it only propagates it). -/
inductive GoError where
  | msg (s : String)
  | timeParse (value : String)
deriving DecidableEq, Repr

/-- ASCII digit test, as in Go's time parsing. -/
def isDigit (c : Char) : Bool := '0' ≤ c && c ≤ '9'

/-- Numeric value of an ASCII digit. -/
def digitVal (c : Char) : Nat := c.toNat - '0'.toNat

/-- Go `isLeap` from the time package. -/
def isLeapYear (y : Nat) : Bool := y % 4 == 0 && (y % 100 != 0 || y % 400 == 0)

/-- Days in a month, as Go's `time.daysIn`. -/
def daysIn (month year : Nat) : Nat :=
  if month == 2 then (if isLeapYear year then 29 else 28)
  else if month == 4 || month == 6 || month == 9 || month == 11 then 30
  else 31

/-- A calendar date. -/
structure Date where
  year : Nat
  month : Nat
  day : Nat
deriving DecidableEq, Repr

/-- Go `time.Parse("2006-01-02", s)`: exactly four year digits, a dash, two
month digits, a dash, two day digits, nothing else; the month must be 1-12
and the day must fit the month (leap years respected), otherwise
`time.Parse` reports out-of-range.  `none` models the returned error. -/
def parseDate (s : String) : Option Date :=
  match s.data with
  | [y1, y2, y3, y4, s1, m1, m2, s2, d1, d2] =>
    if isDigit y1 && isDigit y2 && isDigit y3 && isDigit y4 && s1 == '-'
        && isDigit m1 && isDigit m2 && s2 == '-' && isDigit d1 && isDigit d2 then
      let year := ((digitVal y1 * 10 + digitVal y2) * 10 + digitVal y3) * 10 + digitVal y4
      let month := digitVal m1 * 10 + digitVal m2
      let day := digitVal d1 * 10 + digitVal d2
      if 1 ≤ month && month ≤ 12 && 1 ≤ day && day ≤ daysIn month year then
        some ⟨year, month, day⟩
      else none
    else none
  | _ => none

/-- English month names, as used by Go's `Format("January 2, 2006")`. -/
def monthName : Nat → String
  | 1 => "January"
  | 2 => "February"
  | 3 => "March"
  | 4 => "April"
  | 5 => "May"
  | 6 => "June"
  | 7 => "July"
  | 8 => "August"
  | 9 => "September"
  | 10 => "October"
  | 11 => "November"
  | 12 => "December"
  | _ => ""

/-- A year zero-padded to four digits, as Go's `Format` emits it. -/
def pad4 (n : Nat) : String :=
  let s := toString n
  String.mk (List.replicate (4 - s.length) '0') ++ s

/-- Go `Format("January 2, 2006")`: month name, unpadded day, comma, year. -/
def displayDate (d : Date) : String :=
  monthName d.month ++ " " ++ toString d.day ++ ", " ++ pad4 d.year

/-- `entry.FormatDate`: parse the input in the fixed `2006-01-02` layout and
re-format it as `January 2, 2006`; a parse failure is returned verbatim. -/
def FormatDate (dateStr : String) : Except GoError String :=
  match parseDate dateStr with
  | none => Except.error (GoError.timeParse dateStr)
  | some d => Except.ok (displayDate d)

/-- The loop body of `entry.parseTitle`: for each dash-separated segment `w`,
`strings.ToUpper(string(w[0])) + string(w[1:])`.  On an empty segment the
index expression `w[0]` is out of range and the Go code panics; `none`
models that panic. -/
def capitalizeAll : List (List Char) → Option (List (List Char))
  | [] => some []
  | w :: ws =>
    match w with
    | [] => none
    | c :: cs =>
      match capitalizeAll ws with
      | none => none
      | some rest => some ((c.toUpper :: cs) :: rest)

/-- Go `strings.Join(ws, " ")`. -/
def joinSpaces (ws : List (List Char)) : String :=
  String.intercalate " " (ws.map String.mk)

/-- `entry.parseTitle`: split the title on `-`, capitalize the first
character of every segment, join with spaces.  `none` models the panic on
an empty segment. -/
def parseTitle (title : String) : Option String :=
  (capitalizeAll (splitDash title.data)).map joinSpaces

/-- A Go `map[string]string`, modelled as a key-unique association list. -/
abbrev FrontMatter := List (String × String)

/-- Go map read `fm[k]` with its `ok` flag. -/
def fmGet (fm : FrontMatter) (k : String) : Option String :=
  (fm.find? (fun p => p.1 == k)).map (fun p => p.2)

/-- Go map write `fm[k] = v` (overwrites an existing key). -/
def fmInsert (fm : FrontMatter) (k v : String) : FrontMatter :=
  if fm.any (fun p => p.1 == k) then
    fm.map (fun p => if p.1 == k then (k, v) else p)
  else fm ++ [(k, v)]

/-- `entry.HtmlEntry`.  `Body` holds the rendered HTML fragment and is the
zero value (empty) until rendering. -/
structure HtmlEntry where
  Filename : String
  Title : String
  Published : String
  Revision : String
  Excerpt : String
  Body : String
deriving DecidableEq, Repr

/-- `entry.NewHtmlEntry`: validate `published`, `revision`, `title`,
`excerpt` in that order, failing fast on the first missing key or date
parse error; on success `Filename` is the raw title and `Title` its
normalized form.  The outer `Option` models partiality: `none` is the
panic `parseTitle` makes on a title with an empty segment. -/
def NewHtmlEntry (fm : FrontMatter) : Option (Except GoError HtmlEntry) :=
  match fmGet fm "published" with
  | none => some (Except.error (GoError.msg "Missing publish date in front matter"))
  | some published =>
    match FormatDate published with
    | Except.error e => some (Except.error e)
    | Except.ok formattedPublished =>
      match fmGet fm "revision" with
      | none => some (Except.error (GoError.msg "Missing revision date in front matter"))
      | some revision =>
        match FormatDate revision with
        | Except.error e => some (Except.error e)
        | Except.ok formattedRevision =>
          match fmGet fm "title" with
          | none => some (Except.error (GoError.msg "Missing title in front matter"))
          | some title =>
            match parseTitle title with
            | none => none
            | some parsedTitle =>
              match fmGet fm "excerpt" with
              | none => some (Except.error (GoError.msg "Missing excerpt in front matter"))
              | some excerpt =>
                some (Except.ok
                  { Filename := title
                    Title := parsedTitle
                    Published := formattedPublished
                    Revision := formattedRevision
                    Excerpt := excerpt
                    Body := "" })

/-- The spec's wording of title normalization, applied to one segment:
uppercase its first character. -/
def specCapSeg (w : List Char) : List Char :=
  match w with
  | [] => []
  | c :: cs => c.toUpper :: cs

/-- The spec's wording of title normalization: split on `-`, uppercase the
first character of each segment, join with single spaces. -/
def specNormalizeTitle (title : String) : String :=
  joinSpaces ((splitDash title.data).map specCapSeg)

theorem capitalizeAll_eq_map (ws : List (List Char)) (h : ∀ w ∈ ws, w ≠ []) :
    capitalizeAll ws = some (ws.map specCapSeg) := by
  induction ws with
  | nil => rfl
  | cons w ws ih =>
    cases w with
    | nil => exact absurd rfl (h [] (List.mem_cons_self _ _))
    | cons c cs =>
      rw [List.map_cons]
      simp only [capitalizeAll, ih (fun w hw => h w (List.mem_cons_of_mem _ hw))]
      rfl

theorem parseTitle_eq_spec (t : String) (hseg : ∀ w ∈ splitDash t.data, w ≠ []) :
    parseTitle t = some (specNormalizeTitle t) := by
  simp [parseTitle, capitalizeAll_eq_map _ hseg, specNormalizeTitle]

/-- C1: for every front-matter map containing `published`, `revision`,
`title` and `excerpt`, with both dates in the `YYYY-MM-DD` input format (and
the title's dash-separated segments nonempty, so that its first characters
exist), `NewHtmlEntry` returns an entry and no error; the entry's `Filename`
is the raw title verbatim, its `Title` is the title split on `-` with the
first character of each segment uppercased and the segments joined by single
spaces, its dates are the re-formatted dates and its excerpt is copied. -/
theorem newHtmlEntry_valid_input (fm : FrontMatter) (p r t x : String)
    (hp : fmGet fm "published" = some p)
    (hr : fmGet fm "revision" = some r)
    (ht : fmGet fm "title" = some t)
    (hx : fmGet fm "excerpt" = some x)
    (hpd : (parseDate p).isSome = true)
    (hrd : (parseDate r).isSome = true)
    (hseg : ∀ w ∈ splitDash t.data, w ≠ []) :
    ∃ e, NewHtmlEntry fm = some (Except.ok e)
      ∧ e.Filename = t
      ∧ e.Title = specNormalizeTitle t
      ∧ FormatDate p = Except.ok e.Published
      ∧ FormatDate r = Except.ok e.Revision
      ∧ e.Excerpt = x := by
  obtain ⟨dp, hdp⟩ := Option.isSome_iff_exists.mp hpd
  obtain ⟨dr, hdr⟩ := Option.isSome_iff_exists.mp hrd
  refine ⟨{ Filename := t, Title := specNormalizeTitle t,
            Published := displayDate dp, Revision := displayDate dr,
            Excerpt := x, Body := "" }, ?_, rfl, rfl, ?_, ?_, rfl⟩
  · simp [NewHtmlEntry, hp, hr, ht, hx, FormatDate, hdp, hdr,
      parseTitle_eq_spec t hseg]
  · simp [FormatDate, hdp]
  · simp [FormatDate, hdr]

/-- The concrete front matter of the spec's scenario 1. -/
def fmScenario1 : FrontMatter :=
  [("published", "1987-08-06"), ("revision", "1987-08-06"),
   ("title", "a-title-foo-bar"), ("excerpt", "blah blah blah")]

/-- Witness for C1 at the spec's concrete scenario 1; the second conjunct
checks the fully evaluated entry, field by field. -/
theorem newHtmlEntry_valid_input_witness :
    (∃ e, NewHtmlEntry fmScenario1 = some (Except.ok e)
      ∧ e.Filename = "a-title-foo-bar"
      ∧ e.Title = specNormalizeTitle "a-title-foo-bar"
      ∧ FormatDate "1987-08-06" = Except.ok e.Published
      ∧ FormatDate "1987-08-06" = Except.ok e.Revision
      ∧ e.Excerpt = "blah blah blah")
    ∧ NewHtmlEntry fmScenario1 = some (Except.ok
        { Filename := "a-title-foo-bar", Title := "A Title Foo Bar",
          Published := "August 6, 1987", Revision := "August 6, 1987",
          Excerpt := "blah blah blah", Body := "" }) :=
  ⟨newHtmlEntry_valid_input fmScenario1 "1987-08-06" "1987-08-06"
      "a-title-foo-bar" "blah blah blah" rfl rfl rfl rfl rfl rfl (by decide),
   by rfl⟩

/-- C2: for every front-matter map the validation order is fixed —
`published`, `revision`, `title`, `excerpt` — and when the first problem the
validation encounters is a missing key (every earlier key being present and
passing its own check), `NewHtmlEntry` returns no entry and exactly the
error naming that first missing key; later keys are not examined (the
hypotheses constrain nothing after the missing key). -/
theorem newHtmlEntry_missing_key (fm : FrontMatter) :
    (fmGet fm "published" = none →
      NewHtmlEntry fm
        = some (Except.error (GoError.msg "Missing publish date in front matter")))
  ∧ (∀ p, fmGet fm "published" = some p → (parseDate p).isSome = true →
      fmGet fm "revision" = none →
      NewHtmlEntry fm
        = some (Except.error (GoError.msg "Missing revision date in front matter")))
  ∧ (∀ p r, fmGet fm "published" = some p → (parseDate p).isSome = true →
      fmGet fm "revision" = some r → (parseDate r).isSome = true →
      fmGet fm "title" = none →
      NewHtmlEntry fm
        = some (Except.error (GoError.msg "Missing title in front matter")))
  ∧ (∀ p r t, fmGet fm "published" = some p → (parseDate p).isSome = true →
      fmGet fm "revision" = some r → (parseDate r).isSome = true →
      fmGet fm "title" = some t → (∀ w ∈ splitDash t.data, w ≠ []) →
      fmGet fm "excerpt" = none →
      NewHtmlEntry fm
        = some (Except.error (GoError.msg "Missing excerpt in front matter"))) := by
  refine ⟨fun hp => ?_, fun p hp hpd hr => ?_, fun p r hp hpd hr hrd ht => ?_,
    fun p r t hp hpd hr hrd ht hseg hx => ?_⟩
  · simp [NewHtmlEntry, hp]
  · obtain ⟨dp, hdp⟩ := Option.isSome_iff_exists.mp hpd
    simp [NewHtmlEntry, hp, hr, FormatDate, hdp]
  · obtain ⟨dp, hdp⟩ := Option.isSome_iff_exists.mp hpd
    obtain ⟨dr, hdr⟩ := Option.isSome_iff_exists.mp hrd
    simp [NewHtmlEntry, hp, hr, ht, FormatDate, hdp, hdr]
  · obtain ⟨dp, hdp⟩ := Option.isSome_iff_exists.mp hpd
    obtain ⟨dr, hdr⟩ := Option.isSome_iff_exists.mp hrd
    simp [NewHtmlEntry, hp, hr, ht, hx, FormatDate, hdp, hdr,
      parseTitle_eq_spec t hseg]

/-- Witness for C2: each of the four first-missing-key cases exercised on a
concrete front-matter map. -/
theorem newHtmlEntry_missing_key_witness :
    NewHtmlEntry []
      = some (Except.error (GoError.msg "Missing publish date in front matter"))
    ∧ NewHtmlEntry [("published", "1987-08-06")]
      = some (Except.error (GoError.msg "Missing revision date in front matter"))
    ∧ NewHtmlEntry [("published", "1987-08-06"), ("revision", "1987-08-06")]
      = some (Except.error (GoError.msg "Missing title in front matter"))
    ∧ NewHtmlEntry [("published", "1987-08-06"), ("revision", "1987-08-06"),
        ("title", "a-title-foo-bar")]
      = some (Except.error (GoError.msg "Missing excerpt in front matter")) :=
  ⟨(newHtmlEntry_missing_key []).1 rfl,
   (newHtmlEntry_missing_key [("published", "1987-08-06")]).2.1
      "1987-08-06" rfl rfl rfl,
   (newHtmlEntry_missing_key
        [("published", "1987-08-06"), ("revision", "1987-08-06")]).2.2.1
      "1987-08-06" "1987-08-06" rfl rfl rfl rfl rfl,
   (newHtmlEntry_missing_key
        [("published", "1987-08-06"), ("revision", "1987-08-06"),
         ("title", "a-title-foo-bar")]).2.2.2
      "1987-08-06" "1987-08-06" "a-title-foo-bar" rfl rfl rfl rfl rfl
      (by decide) rfl⟩

/-- C3: for every front-matter map whose `published` value does not parse in
the fixed `YYYY-MM-DD` format — or whose `published` parses but whose
`revision` does not — `NewHtmlEntry` returns no entry and exactly the error
`FormatDate` produced for that value, verbatim, with no constraint on (and
no examination of) any later field. -/
theorem newHtmlEntry_bad_date (fm : FrontMatter) :
    (∀ p, fmGet fm "published" = some p → parseDate p = none →
      NewHtmlEntry fm = some (Except.error (GoError.timeParse p))
      ∧ FormatDate p = Except.error (GoError.timeParse p))
  ∧ (∀ p r, fmGet fm "published" = some p → (parseDate p).isSome = true →
      fmGet fm "revision" = some r → parseDate r = none →
      NewHtmlEntry fm = some (Except.error (GoError.timeParse r))
      ∧ FormatDate r = Except.error (GoError.timeParse r)) := by
  refine ⟨fun p hp hpd => ⟨?_, ?_⟩, fun p r hp hpd hr hrd => ⟨?_, ?_⟩⟩
  · simp [NewHtmlEntry, hp, FormatDate, hpd]
  · simp [FormatDate, hpd]
  · obtain ⟨dp, hdp⟩ := Option.isSome_iff_exists.mp hpd
    simp [NewHtmlEntry, hp, hr, FormatDate, hdp, hrd]
  · simp [FormatDate, hrd]

/-- Witness for C3 at the spec's concrete scenario 3 (`published:
"1987-bad-06"`), plus the published-valid/revision-malformed case. -/
theorem newHtmlEntry_bad_date_witness :
    (NewHtmlEntry [("published", "1987-bad-06"), ("revision", "1987-08-06"),
        ("title", "a-title-foo-bar"), ("excerpt", "blah blah blah")]
      = some (Except.error (GoError.timeParse "1987-bad-06"))
      ∧ FormatDate "1987-bad-06" = Except.error (GoError.timeParse "1987-bad-06"))
    ∧ (NewHtmlEntry [("published", "1987-08-06"), ("revision", "1987-13-40")]
      = some (Except.error (GoError.timeParse "1987-13-40"))
      ∧ FormatDate "1987-13-40" = Except.error (GoError.timeParse "1987-13-40")) :=
  ⟨(newHtmlEntry_bad_date [("published", "1987-bad-06"), ("revision", "1987-08-06"),
        ("title", "a-title-foo-bar"), ("excerpt", "blah blah blah")]).1
      "1987-bad-06" rfl rfl,
   (newHtmlEntry_bad_date [("published", "1987-08-06"), ("revision", "1987-13-40")]).2
      "1987-08-06" "1987-13-40" rfl rfl rfl rfl⟩

/-- C8: on titles with a leading or embedded empty segment the
normalization's index expression `w[0]` is out of range — modelled by
`parseTitle` returning `none` — so `NewHtmlEntry` is not total on such
inputs: with all four keys present and valid dates it panics (outer `none`)
instead of returning an entry or an error. -/
theorem parseTitle_empty_segment_panics :
    parseTitle "-foo" = none
    ∧ parseTitle "foo--bar" = none
    ∧ NewHtmlEntry [("published", "1987-08-06"), ("revision", "1987-08-06"),
        ("title", "-foo"), ("excerpt", "blah blah blah")] = none
    ∧ NewHtmlEntry [("published", "1987-08-06"), ("revision", "1987-08-06"),
        ("title", "foo--bar"), ("excerpt", "blah blah blah")] = none :=
  ⟨rfl, rfl, rfl, rfl⟩

/-- `server.grantPermission`, parametrized by the hashed constant-time
string comparison `match` (an external collaborator built on the crypto
packages) and by the values of the `BASIC_AUTH_USER` / `BASIC_AUTH_PASS`
environment variables (`os.Getenv` returns the empty string when a variable
is unset). -/
def grantPermission (matchFn : String → String → Bool)
    (envUser envPass username password : String) : Bool :=
  if envUser == "" || envPass == "" then false
  else matchFn username envUser && matchFn password envPass

/-- C9: for every supplied username and password — and every behaviour of
the underlying comparison — if either configured credential is empty
(unset), `grantPermission` returns `false`: the Basic-Auth gate fails
closed when credentials are not configured. -/
theorem grantPermission_fails_closed (matchFn : String → String → Bool)
    (envUser envPass username password : String)
    (h : envUser = "" ∨ envPass = "") :
    grantPermission matchFn envUser envPass username password = false := by
  rcases h with h | h <;> simp [grantPermission, h]

/-- Witness for C9: an unset password credential rejects even a comparison
that always succeeds. -/
theorem grantPermission_fails_closed_witness :
    grantPermission (fun _ _ => true) "admin" "" "admin" "hunter2" = false :=
  grantPermission_fails_closed (fun _ _ => true) "admin" "" "admin" "hunter2"
    (Or.inr rfl)

/-- Go `strings.SplitN(line, ":", 2)`: split at the first `:`.  `none`
models the length-1 result (no colon present), which the caller treats as
the invalid key-value pair error. -/
def splitColon : List Char → Option (List Char × List Char)
  | [] => none
  | c :: cs =>
    if c = ':' then some ([], cs)
    else (splitColon cs).map (fun kv => (c :: kv.1, kv.2))

/-- `readFrontMatter`, over the lines of the input stream (the scanner's
line sequence).  The boolean records whether the opening delimiter has been
seen; before it, lines are skipped.  On success the front matter and the
lines remaining after the closing delimiter are returned. -/
def rfmAux (openingSeen : Bool) (fm : FrontMatter) :
    List String → Except GoError (FrontMatter × List String)
  | [] => Except.error (GoError.msg "no content found")
  | l :: rest =>
    if trimSpaces l = "---" then
      if openingSeen then Except.ok (fm, rest)
      else rfmAux true fm rest
    else
      if openingSeen then
        match splitColon (trimSpaces l).data with
        | none => Except.error (GoError.msg "invalid front matter key-value pair")
        | some kv =>
          rfmAux true (fmInsert fm (String.mk kv.1) (trimSpaces (String.mk kv.2))) rest
      else rfmAux false fm rest

/-- `readFrontMatter` on a whole stream. -/
def readFrontMatter (lines : List String) :
    Except GoError (FrontMatter × List String) :=
  rfmAux false [] lines

/-- `readBody`: concatenate the remaining lines, each terminated with a
newline. -/
def readBody (lines : List String) : String :=
  String.join (lines.map (fun l => l ++ "\n"))

/-- `ParseMd` on the lines of a draft file: front matter first, then the
body. -/
def ParseMd (lines : List String) : Except GoError (FrontMatter × String) :=
  match readFrontMatter lines with
  | Except.error e => Except.error e
  | Except.ok (fm, rest) => Except.ok (fm, readBody rest)

theorem splitColon_eq_none (cs : List Char) :
    splitColon cs = none ↔ ':' ∉ cs := by
  induction cs with
  | nil => simp [splitColon]
  | cons c cs ih =>
    by_cases hc : c = ':'
    · subst hc
      simp [splitColon]
    · have hc' : (':' : Char) ≠ c := fun h => hc h.symm
      cases hsc : splitColon cs with
      | none =>
        have h2 : ':' ∉ cs := ih.mp hsc
        simp [splitColon, hc, hsc, List.mem_cons, hc', h2]
      | some kv =>
        have h2 : ':' ∈ cs := by
          by_contra h3
          exact Option.some_ne_none kv (hsc ▸ ih.mpr h3)
        simp [splitColon, hc, hsc, List.mem_cons, h2]

theorem rfmAux_skip (pre : List String) (hpre : ∀ l ∈ pre, trimSpaces l ≠ "---")
    (fm : FrontMatter) (rest : List String) :
    rfmAux false fm (pre ++ rest) = rfmAux false fm rest := by
  induction pre with
  | nil => rfl
  | cons l pre ih =>
    have hl := hpre l (List.mem_cons_self _ _)
    simp only [List.cons_append, rfmAux, if_neg hl, Bool.false_eq_true, if_false]
    exact ih (fun m hm => hpre m (List.mem_cons_of_mem _ hm))

theorem rfmAux_bad_pair (mid : List String)
    (hmid : ∀ l ∈ mid, trimSpaces l ≠ "---" ∧ ':' ∈ (trimSpaces l).data)
    (bad : String) (hbad1 : trimSpaces bad ≠ "---")
    (hbad2 : ':' ∉ (trimSpaces bad).data)
    (rest : List String) (fm : FrontMatter) :
    rfmAux true fm (mid ++ bad :: rest)
      = Except.error (GoError.msg "invalid front matter key-value pair") := by
  induction mid generalizing fm with
  | nil =>
    have hsc : splitColon (trimSpaces bad).data = none :=
      (splitColon_eq_none _).mpr hbad2
    simp [rfmAux, if_neg hbad1, hsc]
  | cons l mid ih =>
    obtain ⟨hl1, hl2⟩ := hmid l (List.mem_cons_self _ _)
    have hne : splitColon (trimSpaces l).data ≠ none := by
      rw [Ne, splitColon_eq_none]
      exact fun h => h hl2
    obtain ⟨kv, hkv⟩ := Option.ne_none_iff_exists'.mp hne
    simp only [List.cons_append, rfmAux, if_neg hl1, hkv, if_true]
    exact ih (fun m hm => hmid m (List.mem_cons_of_mem _ hm)) _

/-- C4: for every input stream in which a line strictly between the opening
delimiter and any closing delimiter does not contain a `:` (all lines read
modulo space-trimming), the front-matter parser returns no mapping — only
the hard error `invalid front matter key-value pair`. -/
theorem readFrontMatter_bad_pair (pre mid rest : List String) (opn bad : String)
    (hpre : ∀ l ∈ pre, trimSpaces l ≠ "---")
    (hopn : trimSpaces opn = "---")
    (hmid : ∀ l ∈ mid, trimSpaces l ≠ "---" ∧ ':' ∈ (trimSpaces l).data)
    (hbad1 : trimSpaces bad ≠ "---")
    (hbad2 : ':' ∉ (trimSpaces bad).data) :
    readFrontMatter (pre ++ opn :: (mid ++ bad :: rest))
      = Except.error (GoError.msg "invalid front matter key-value pair") := by
  unfold readFrontMatter
  rw [rfmAux_skip pre hpre]
  simp only [rfmAux, if_pos hopn, Bool.false_eq_true, if_false]
  exact rfmAux_bad_pair mid hmid bad hbad1 hbad2 rest []

/-- Witness for C4: a preamble line, an opening delimiter, one good pair,
then a colon-less line. -/
theorem readFrontMatter_bad_pair_witness :
    readFrontMatter ["preamble junk", "---", "title: a-title", "oops", "---", "body"]
      = Except.error (GoError.msg "invalid front matter key-value pair") :=
  readFrontMatter_bad_pair ["preamble junk"] ["title: a-title"] ["---", "body"]
    "---" "oops"
    (by decide) (by decide) (by decide) (by decide) (by decide)

/-- C10: every line preceding the first opening delimiter is silently
discarded: the parser (and the whole markdown parse, body included) behaves
on `pre ++ rest` exactly as on `rest` alone, so such lines are never
inserted into the mapping, never raise a key-value parse error, and never
reach the returned body. -/
theorem frontMatter_skips_preamble (pre rest : List String)
    (hpre : ∀ l ∈ pre, trimSpaces l ≠ "---") :
    readFrontMatter (pre ++ rest) = readFrontMatter rest
    ∧ ParseMd (pre ++ rest) = ParseMd rest := by
  have h := rfmAux_skip pre hpre [] rest
  refine ⟨h, ?_⟩
  unfold ParseMd readFrontMatter
  rw [show rfmAux false [] (pre ++ rest) = rfmAux false [] rest from h]

/-- Witness for C10: preamble lines — including one that looks like a
key-value pair and one with no colon — change nothing; the concrete result
is also evaluated. -/
theorem frontMatter_skips_preamble_witness :
    (readFrontMatter (["k: v", "no colon here"] ++ ["---", "title: t", "---", "body"])
      = readFrontMatter ["---", "title: t", "---", "body"]
      ∧ ParseMd (["k: v", "no colon here"] ++ ["---", "title: t", "---", "body"])
        = ParseMd ["---", "title: t", "---", "body"])
    ∧ ParseMd ["---", "title: t", "---", "body"]
      = Except.ok ([("title", "t")], "body\n") :=
  ⟨frontMatter_skips_preamble ["k: v", "no colon here"]
      ["---", "title: t", "---", "body"] (by decide),
   by rfl⟩

/-- The effectful collaborators of `editor.Publish`, one outcome per step:
reading and parsing the draft (`ParseMd`), the external markdown renderer
(total), creating the output page file, loading the layout templates,
executing the template into the page file, and moving the draft into the
published directory (`filer.Publish`, an `os.Rename`). -/
structure PublishEnv where
  parseMd : Except GoError (FrontMatter × String)
  render : String → String
  createPage : String → Except GoError Unit
  parseTemplates : Except GoError Unit
  execTemplate : HtmlEntry → Except GoError Unit
  move : Except GoError Unit

/-- Filesystem effects `Publish` can perform, in order of occurrence. -/
inductive FsAction where
  | createdPage (name : String)
  | wrotePage (name : String)
  | moveAttempted
  | movedDraft
deriving DecidableEq, Repr

/-- `editor.Publish`: parse, validate, render, write, then move the source
out of the draft directory.  The result pairs the returned error value
(`none` models the panic possible inside `NewHtmlEntry`) with the trace of
filesystem effects performed; every failure returns immediately. -/
def Publish (env : PublishEnv) : Option (Except GoError Unit) × List FsAction :=
  match env.parseMd with
  | Except.error e => (some (Except.error e), [])
  | Except.ok (fm, body) =>
    match NewHtmlEntry fm with
    | none => (none, [])
    | some (Except.error e) => (some (Except.error e), [])
    | some (Except.ok e0) =>
      let ent := { e0 with Body := env.render body }
      match env.createPage ent.Filename with
      | Except.error e => (some (Except.error e), [])
      | Except.ok _ =>
        match env.parseTemplates with
        | Except.error e =>
          (some (Except.error e), [FsAction.createdPage ent.Filename])
        | Except.ok _ =>
          match env.execTemplate ent with
          | Except.error e =>
            (some (Except.error e), [FsAction.createdPage ent.Filename])
          | Except.ok _ =>
            match env.move with
            | Except.error e =>
              (some (Except.error e),
               [FsAction.createdPage ent.Filename,
                FsAction.wrotePage ent.Filename, FsAction.moveAttempted])
            | Except.ok _ =>
              (some (Except.ok ()),
               [FsAction.createdPage ent.Filename,
                FsAction.wrotePage ent.Filename,
                FsAction.moveAttempted, FsAction.movedDraft])

/-- C5: whenever `Publish` fails at the parse, entry-validation, file
creation or render/template step it returns that step's error with the
rename never attempted (the trace carries no move), and conversely the
rename is only ever attempted after every earlier step has succeeded — so
on any pre-move failure the draft file is left untouched. -/
theorem publish_aborts_before_move (env : PublishEnv) :
    (∀ e, env.parseMd = Except.error e →
      Publish env = (some (Except.error e), []))
  ∧ (∀ fm body e, env.parseMd = Except.ok (fm, body) →
      NewHtmlEntry fm = some (Except.error e) →
      Publish env = (some (Except.error e), []))
  ∧ (∀ fm body, env.parseMd = Except.ok (fm, body) →
      NewHtmlEntry fm = none → Publish env = (none, []))
  ∧ (∀ fm body ent e, env.parseMd = Except.ok (fm, body) →
      NewHtmlEntry fm = some (Except.ok ent) →
      env.parseMd = Except.ok (fm, body) →
      env.createPage ent.Filename = Except.ok () →
      env.parseTemplates = Except.error e →
      Publish env = (some (Except.error e), [FsAction.createdPage ent.Filename]))
  ∧ (∀ fm body ent e, env.parseMd = Except.ok (fm, body) →
      NewHtmlEntry fm = some (Except.ok ent) →
      env.createPage ent.Filename = Except.ok () →
      env.parseTemplates = Except.ok () →
      env.execTemplate { ent with Body := env.render body } = Except.error e →
      Publish env = (some (Except.error e), [FsAction.createdPage ent.Filename]))
  ∧ (FsAction.moveAttempted ∈ (Publish env).2 →
      ∃ fm body ent, env.parseMd = Except.ok (fm, body)
        ∧ NewHtmlEntry fm = some (Except.ok ent)
        ∧ env.createPage ent.Filename = Except.ok ()
        ∧ env.parseTemplates = Except.ok ()
        ∧ env.execTemplate { ent with Body := env.render body } = Except.ok ()) := by
  refine ⟨fun e hpm => ?_, fun fm body e hpm hne => ?_, fun fm body hpm hne => ?_,
    fun fm body ent e hpm hne _ hcp hpt => ?_,
    fun fm body ent e hpm hne hcp hpt hex => ?_, fun hmem => ?_⟩
  · simp [Publish, hpm]
  · simp [Publish, hpm, hne]
  · simp [Publish, hpm, hne]
  · simp [Publish, hpm, hne, hcp, hpt]
  · simp [Publish, hpm, hne, hcp, hpt, hex]
  · rcases hpm : env.parseMd with e | ⟨fm, body⟩
    · simp [Publish, hpm] at hmem
    · cases hne : NewHtmlEntry fm with
      | none => simp [Publish, hpm, hne] at hmem
      | some exc =>
        cases exc with
        | error e => simp [Publish, hpm, hne] at hmem
        | ok ent =>
          cases hcp : env.createPage ent.Filename with
          | error e => simp [Publish, hpm, hne, hcp] at hmem
          | ok u =>
            cases u
            cases hpt : env.parseTemplates with
            | error e => simp [Publish, hpm, hne, hcp, hpt] at hmem
            | ok v =>
              cases v
              cases hex : env.execTemplate { ent with Body := env.render body } with
              | error e => simp [Publish, hpm, hne, hcp, hpt, hex] at hmem
              | ok w =>
                cases w
                exact ⟨fm, body, ent, rfl, hne, hcp, rfl, hex⟩

/-- A concrete environment whose parse step fails. -/
def envParseFails : PublishEnv :=
  { parseMd := Except.error (GoError.msg "no content found")
    render := fun b => b
    createPage := fun _ => Except.ok ()
    parseTemplates := Except.ok ()
    execTemplate := fun _ => Except.ok ()
    move := Except.ok () }

/-- Witness for C5: a failing parse step returns its error with an empty
effect trace (in particular no move). -/
theorem publish_aborts_before_move_witness :
    Publish envParseFails
      = (some (Except.error (GoError.msg "no content found")), []) :=
  (publish_aborts_before_move envParseFails).1 (GoError.msg "no content found") rfl

/-- The concurrent `editor.PublishAll`: list the draft directory, spawn one
task per draft whose body calls `Publish` and discards its result, wait for
all of them, return `nil`.  The first component is the value `PublishAll`
returns; the second records, per spawned task, the discarded outcome of its
`Publish` call (an outcome of `none` models a panicking task). -/
def PublishAllC (listDrafts : Except GoError (List String))
    (publishOutcome : String → Option (Except GoError Unit)) :
    Except GoError Unit × List (String × Option (Except GoError Unit)) :=
  match listDrafts with
  | Except.error e => (Except.error e, [])
  | Except.ok drafts => (Except.ok (), drafts.map (fun d => (d, publishOutcome d)))

/-- C6: in the concurrent `PublishAll`, per-file `Publish` errors are
swallowed: whenever listing the draft directory succeeds the call returns
`nil` — whatever the individual outcomes, including all of them failing —
and the only possible non-nil error is the directory-listing error. -/
theorem publishAll_swallows_errors (listDrafts : Except GoError (List String))
    (publishOutcome : String → Option (Except GoError Unit)) :
    (∀ drafts, listDrafts = Except.ok drafts →
      (PublishAllC listDrafts publishOutcome).1 = Except.ok ()
      ∧ (PublishAllC listDrafts publishOutcome).2
          = drafts.map (fun d => (d, publishOutcome d)))
  ∧ (∀ e, (PublishAllC listDrafts publishOutcome).1 = Except.error e →
      listDrafts = Except.error e) := by
  cases listDrafts with
  | error e =>
    exact ⟨fun drafts h => absurd h (by simp), fun e' h => by simpa [PublishAllC] using h⟩
  | ok drafts =>
    refine ⟨fun ds h => ?_, fun e h => ?_⟩
    · cases h
      exact ⟨rfl, rfl⟩
    · simp [PublishAllC] at h

/-- Witness for C6: two drafts whose `Publish` calls both fail, yet
`PublishAll` returns `nil`; the trace shows the discarded failures. -/
theorem publishAll_swallows_errors_witness :
    (PublishAllC (Except.ok ["a.md", "b.md"])
        (fun _ => some (Except.error (GoError.msg "disk full")))).1 = Except.ok ()
    ∧ (PublishAllC (Except.ok ["a.md", "b.md"])
        (fun _ => some (Except.error (GoError.msg "disk full")))).2
      = [("a.md", some (Except.error (GoError.msg "disk full"))),
         ("b.md", some (Except.error (GoError.msg "disk full")))] :=
  (publishAll_swallows_errors (Except.ok ["a.md", "b.md"])
      (fun _ => some (Except.error (GoError.msg "disk full")))).1
    ["a.md", "b.md"] rfl

end Blog
